import Mathlib

/-!
Verification of the rafka core against its specification.

The repository ships rafka.go (process startup, the run loop) and an
end-to-end test suite.  The Manager, Consumer Session and Producer Session
bodies referenced by rafka.go are not present in the source tree, so those
components are modelled from the specification text; rafka.go itself is
embedded directly.
-/

namespace Rafka

/-- Group Identity: the (group, id) pair identifying a logical consumer
slot, as in the data model of the spec. -/
structure GroupID where
  group : String
  id : String
deriving DecidableEq, Repr

/-- Modelled from the spec: Consumer Session state (data model of the spec);
the consumer implementation file is absent from the source tree.  The
session is bound to its Group Identity and subscribed topic, and carries the
offset position it consumes from. -/
structure ConsumerSession where
  gid : GroupID
  topic : String
  position : Nat
deriving DecidableEq, Repr

/-- Error taxonomy of the spec. -/
inductive Err where
  | duplicateIdentity
  | timeout
  | sessionDead
  | shutdown
  | produceFailure (e : String)
  | localEnqueueFailure
deriving DecidableEq, Repr

/-- Modelled from the spec: the external log system's committed offsets,
keyed by consumer group and topic.  The core never stores offsets itself;
it only reads and triggers commits of this state. -/
structure Log where
  committed : String → String → Nat

/-- Modelled from the spec: the Manager registry of live Consumer Sessions
keyed by Group Identity; the manager implementation file is absent from the
source tree. -/
structure Manager where
  registry : List (GroupID × ConsumerSession)

/-- A Group Identity is active when some registry entry holds it. -/
def Manager.isActive (m : Manager) (g : GroupID) : Bool :=
  m.registry.any fun p => decide (p.1 = g)

/-- Modelled from the spec: Register(group, id, topic).  Fails with
DuplicateIdentity when an active session already holds the identity,
leaving the registry untouched; otherwise creates a new Consumer Session
bound to the topic, starting at the committed offset of the group, adds it
to the registry and returns it. -/
def Manager.register (m : Manager) (log : Log) (g : GroupID) (t : String) :
    Except Err ConsumerSession × Manager :=
  if m.isActive g then (.error .duplicateIdentity, m)
  else
    let s : ConsumerSession := ⟨g, t, log.committed g.group t⟩
    (.ok s, ⟨(g, s) :: m.registry⟩)

/-- Modelled from the spec: Unregister(group, id) removes the identity from
the registry; unregistering an unknown identity is a no-op. -/
def Manager.unregister (m : Manager) (g : GroupID) : Manager :=
  ⟨m.registry.filter fun p => !(decide (p.1 = g))⟩

theorem isActive_false_iff (m : Manager) (g : GroupID) :
    m.isActive g = false ↔ ∀ p ∈ m.registry, p.1 ≠ g := by
  unfold Manager.isActive
  simp [List.any_eq_true]

/-- Claim C1: for every Group Identity at most one active Consumer Session
exists at any time.  A Register call made while an active session holds
(group, id) fails with DuplicateIdentity and does not replace the existing
session; otherwise Register creates a new session bound to the topic, adds
it to the registry and returns it; and Register preserves the
one-session-per-identity invariant of the registry. -/
theorem register_unique (m : Manager) (log : Log) (g : GroupID) (t : String) :
    (m.isActive g = true →
      m.register log g t = (.error .duplicateIdentity, m)) ∧
    (m.isActive g = false →
      m.register log g t =
        (.ok ⟨g, t, log.committed g.group t⟩,
         ⟨(g, ⟨g, t, log.committed g.group t⟩) :: m.registry⟩)) ∧
    (∀ s m', m.register log g t = (.ok s, m') →
      (m.registry.map Prod.fst).Nodup → (m'.registry.map Prod.fst).Nodup) := by
  refine ⟨?_, ?_, ?_⟩
  · intro h
    simp [Manager.register, h]
  · intro h
    simp [Manager.register, h]
  · intro s m' h hnd
    unfold Manager.register at h
    by_cases hact : m.isActive g
    · simp [hact] at h
    · simp only [hact, Bool.false_eq_true, if_false] at h
      obtain ⟨-, hm⟩ := Prod.mk.injEq .. ▸ h
      subst hm
      simp only [List.map_cons, List.nodup_cons]
      refine ⟨?_, hnd⟩
      rw [Bool.not_eq_true] at hact
      rw [isActive_false_iff] at hact
      intro hmem
      obtain ⟨p, hp, hpg⟩ := List.mem_map.mp hmem
      exact hact p hp hpg

/-- Witness for register_unique at a concrete registry: the identity g0 is
already active, so Register fails with DuplicateIdentity and the registry
is unchanged. -/
theorem register_unique_witness :
    (Manager.mk [(⟨"gr", "id1"⟩, ⟨⟨"gr", "id1"⟩, "a-topic", 0⟩)]).register
        ⟨fun _ _ => 0⟩ ⟨"gr", "id1"⟩ "a-topic" =
      (.error .duplicateIdentity,
       Manager.mk [(⟨"gr", "id1"⟩, ⟨⟨"gr", "id1"⟩, "a-topic", 0⟩)]) :=
  (register_unique (Manager.mk [(⟨"gr", "id1"⟩, ⟨⟨"gr", "id1"⟩, "a-topic", 0⟩)])
    ⟨fun _ _ => 0⟩ ⟨"gr", "id1"⟩ "a-topic").1 (by decide)

/-! Producer Session, modelled from the spec (the producer implementation
file is absent from the source tree).  A Pending Delivery is an in-flight
produce awaiting broker acknowledgment; the broker side is modelled by
giving each delivery the time its delivery report arrives and its terminal
outcome. -/

/-- Terminal outcome of a Pending Delivery, as reported by the broker. -/
inductive Outcome where
  | acked
  | failed (e : String)
deriving DecidableEq, Repr

/-- Modelled from the spec: a Pending Delivery with the produced record, the
time the broker delivery report arrives, and its terminal outcome. -/
structure Delivery where
  topic : String
  key : String
  value : String
  completeAt : Nat
  outcome : Outcome
deriving DecidableEq, Repr

/-- Modelled from the spec: Producer Session state, a bounded batching
buffer of pending deliveries in enqueue order. -/
structure Producer where
  pending : List Delivery
  bufCap : Nat
deriving DecidableEq, Repr

/-- The local batching buffer rejects an enqueue when it is full. -/
def Producer.bufferFull (p : Producer) : Bool :=
  decide (p.bufCap ≤ p.pending.length)

/-- Modelled from the spec: Produce(topic, key, value).  Immediate local
enqueue only: fails with LocalEnqueueFailure when the buffer is full,
otherwise appends the delivery to the batching buffer.  The eventual broker
outcome of the delivery is not consulted. -/
def Producer.produce (p : Producer) (d : Delivery) : Except Err Producer :=
  if p.bufferFull then .error .localEnqueueFailure
  else .ok ⟨p.pending ++ [d], p.bufCap⟩

/-- First delivery error among the pending deliveries, in enqueue order. -/
def firstFailure : List Delivery → Option String
  | [] => none
  | d :: rest =>
    match d.outcome with
    | .failed e => some e
    | .acked => firstFailure rest

/-- Modelled from the spec: Flush(timeout).  Blocks until all enqueued
deliveries are acknowledged by the broker or the deadline elapses.  When
every pending delivery report arrives by the deadline, returns the first
delivery error encountered if any (clearing the buffer), otherwise nil;
when the deadline expires first, returns Timeout with the state
untouched. -/
def Producer.flush (p : Producer) (deadline : Nat) : Except Err Unit × Producer :=
  if p.pending.all (fun d => decide (d.completeAt ≤ deadline)) then
    match firstFailure p.pending with
    | some e => (.error (.produceFailure e), ⟨[], p.bufCap⟩)
    | none => (.ok (), ⟨[], p.bufCap⟩)
  else (.error .timeout, p)

theorem firstFailure_eq_none_iff (l : List Delivery) :
    firstFailure l = none ↔ ∀ d ∈ l, d.outcome = .acked := by
  induction l with
  | nil => simp [firstFailure]
  | cons d rest ih =>
    cases hd : d.outcome with
    | acked => simp [firstFailure, hd, ih]
    | failed e => simp [firstFailure, hd]

/-- Claim C2: if Flush returns successfully then every Produce call issued
before it has been acknowledged by the broker (its delivery report arrived
by the deadline and the outcome is acked); and if any enqueued delivery
failed, a completing Flush returns the first delivery error encountered. -/
theorem flush_completeness (p : Producer) (dl : Nat) :
    ((p.flush dl).1 = .ok () →
      (∀ d ∈ p.pending, d.completeAt ≤ dl) ∧
      (∀ d ∈ p.pending, d.outcome = .acked)) ∧
    (∀ e, firstFailure p.pending = some e →
      (∀ d ∈ p.pending, d.completeAt ≤ dl) →
      (p.flush dl).1 = .error (.produceFailure e)) := by
  constructor
  · intro h
    unfold Producer.flush at h
    by_cases hc : p.pending.all (fun d => decide (d.completeAt ≤ dl))
    · refine ⟨fun d hd => by simpa using List.all_eq_true.mp hc d hd, ?_⟩
      rw [← firstFailure_eq_none_iff]
      cases hf : firstFailure p.pending with
      | none => rfl
      | some e => simp [hc, hf] at h
    · simp [hc] at h
  · intro e he hall
    have hc : p.pending.all (fun d => decide (d.completeAt ≤ dl)) = true := by
      rw [List.all_eq_true]
      intro d hd
      simpa using hall d hd
    simp [Producer.flush, hc, he]

/-- Witness for flush_completeness: a producer with one failed delivery
complete by the deadline; Flush reports the first delivery error. -/
theorem flush_completeness_witness :
    (Producer.mk [⟨"idontexist", "", "foo", 2, .failed "unknown topic"⟩] 10).flush 5
      = ((.error (.produceFailure "unknown topic")),
         Producer.mk [] 10) := by
  have h := (flush_completeness
    (Producer.mk [⟨"idontexist", "", "foo", 2, .failed "unknown topic"⟩] 10) 5).2
    "unknown topic" (by decide) (by decide)
  have hsnd :
      ((Producer.mk [⟨"idontexist", "", "foo", 2, .failed "unknown topic"⟩] 10).flush 5).2
        = Producer.mk [] 10 := by decide
  rw [Prod.ext_iff]
  exact ⟨h, hsnd⟩

theorem firstFailure_append_failed (l : List Delivery) (d : Delivery) (e : String)
    (hl : firstFailure l = none) (hd : d.outcome = .failed e) :
    firstFailure (l ++ [d]) = some e := by
  induction l with
  | nil => simp [firstFailure, hd]
  | cons x rest ih =>
    rw [firstFailure_eq_none_iff] at hl
    have hx : x.outcome = .acked := hl x (by simp)
    have hrest : firstFailure rest = none := by
      rw [firstFailure_eq_none_iff]
      intro y hy
      exact hl y (by simp [hy])
    simpa [firstFailure, hx] using ih hrest

/-- Claim C3: Produce returns an error only when the local enqueue into the
batching buffer is rejected (buffer full), and that error is
LocalEnqueueFailure regardless of the delivery's eventual broker outcome;
when the buffer is not full Produce succeeds even for a delivery the broker
will reject, and that broker failure is surfaced only by a later Flush. -/
theorem produce_local_only (p : Producer) (d : Delivery) :
    (∀ e, p.produce d = .error e →
      e = .localEnqueueFailure ∧ p.bufferFull = true) ∧
    (p.bufferFull = false → p.produce d = .ok ⟨p.pending ++ [d], p.bufCap⟩) ∧
    (∀ e dl p', d.outcome = .failed e →
      firstFailure p.pending = none →
      p.produce d = .ok p' →
      (∀ x ∈ p'.pending, x.completeAt ≤ dl) →
      (p'.flush dl).1 = .error (.produceFailure e)) := by
  refine ⟨?_, ?_, ?_⟩
  · intro e he
    by_cases hb : p.bufferFull
    · rw [Producer.produce, if_pos hb] at he
      exact ⟨(Except.error.injEq .. ▸ he).symm, hb⟩
    · rw [Producer.produce, if_neg hb] at he
      exact absurd he (by simp)
  · intro hb
    simp [Producer.produce, hb]
  · intro e dl p' hout hnone hok hall
    by_cases hb : p.bufferFull
    · rw [Producer.produce, if_pos hb] at hok
      exact absurd hok (by simp)
    · rw [Producer.produce, if_neg hb] at hok
      have hok' : (⟨p.pending ++ [d], p.bufCap⟩ : Producer) = p' :=
        Except.ok.inj hok
      subst hok'
      exact (flush_completeness ⟨p.pending ++ [d], p.bufCap⟩ dl).2 e
        (firstFailure_append_failed p.pending d e hnone hout) hall

/-- Witness for produce_local_only: an empty producer accepts a delivery the
broker will later reject, and the subsequent Flush returns ProduceFailure. -/
theorem produce_local_only_witness :
    (Producer.mk [] 10).produce ⟨"idontexist", "", "foo", 2, .failed "unknown topic"⟩
        = .ok (Producer.mk [⟨"idontexist", "", "foo", 2, .failed "unknown topic"⟩] 10) ∧
    ((Producer.mk [⟨"idontexist", "", "foo", 2, .failed "unknown topic"⟩] 10).flush 5).1
        = .error (.produceFailure "unknown topic") := by
  have h := produce_local_only (Producer.mk [] 10)
    ⟨"idontexist", "", "foo", 2, .failed "unknown topic"⟩
  refine ⟨h.2.1 (by decide), ?_⟩
  exact h.2.2 "unknown topic" 5
    (Producer.mk [⟨"idontexist", "", "foo", 2, .failed "unknown topic"⟩] 10)
    (by decide) (by decide) (h.2.1 (by decide)) (by decide)

/-! Consumer Session event pump, modelled from the spec: a dedicated pump
task places each message event into a single-slot delivery queue, blocking
while the previous message is not yet consumed. -/

/-- Modelled from the spec: the observable state of a Consumer Session's
event pump.  queue is the delivery queue between the pump and the caller,
upstream the messages the log pump will observe next, consumed the messages
the caller has dequeued so far. -/
structure PumpState where
  queue : List String
  upstream : List String
  consumed : List String
deriving DecidableEq, Repr

/-- Modelled from the spec: one step of the pump/caller system.  The pump
may deliver the next upstream message only when the delivery queue is
empty; the caller may consume the message at the head of the queue. -/
inductive PumpStep : PumpState → PumpState → Prop where
  | deliver (m : String) (up con : List String) :
      PumpStep ⟨[], m :: up, con⟩ ⟨[m], up, con⟩
  | consume (m : String) (q up con : List String) :
      PumpStep ⟨m :: q, up, con⟩ ⟨q, up, con ++ [m]⟩

/-- States reachable from a given initial pump state. -/
inductive PumpReach (init : PumpState) : PumpState → Prop where
  | refl : PumpReach init init
  | step {s s' : PumpState} : PumpReach init s → PumpStep s s' → PumpReach init s'

/-- Claim C4: at every reachable state the Consumer Session buffers at most
one undelivered message (its delivery queue is a single slot), and while a
message is pending the only enabled step is the caller consuming it: the
pump delivers nothing from upstream until the slot is empty again. -/
theorem single_slot_backpressure (up : List String) (s : PumpState)
    (h : PumpReach ⟨[], up, []⟩ s) :
    s.queue.length ≤ 1 ∧
    (∀ s', PumpStep s s' → s.queue ≠ [] →
      s'.upstream = s.upstream ∧ s'.queue = [] ∧
      s'.consumed = s.consumed ++ s.queue) := by
  have hlen : s.queue.length ≤ 1 := by
    induction h with
    | refl => simp
    | step hr hs ih =>
      cases hs with
      | deliver m up' con => simp
      | consume m q up' con => simpa using Nat.le_of_succ_le (Nat.succ_le_succ ih)
  refine ⟨hlen, ?_⟩
  intro s' hs hne
  cases hs with
  | deliver m up' con => exact absurd rfl hne
  | consume m q up' con =>
    have hq : q = [] := by
      simp only [List.length_cons, Nat.succ_le_succ_iff, Nat.le_zero,
        List.length_eq_zero] at hlen
      exact hlen
    subst hq
    exact ⟨rfl, rfl, rfl⟩

/-- Witness for single_slot_backpressure at the state reached by delivering
one message from upstream: the queue holds exactly that message, and any
step from here leaves upstream untouched and moves the message to the
consumed list. -/
theorem single_slot_backpressure_witness :
    (PumpState.mk ["a"] ["b"] []).queue.length ≤ 1 ∧
    (∀ s', PumpStep ⟨["a"], ["b"], []⟩ s' →
      (PumpState.mk ["a"] ["b"] []).queue ≠ [] →
      s'.upstream = (PumpState.mk ["a"] ["b"] []).upstream ∧ s'.queue = [] ∧
      s'.consumed = (PumpState.mk ["a"] ["b"] []).consumed
        ++ (PumpState.mk ["a"] ["b"] []).queue) :=
  single_slot_backpressure ["a", "b"] ⟨["a"], ["b"], []⟩
    (PumpReach.step PumpReach.refl (PumpStep.deliver "a" ["b"] []))

/-! Blocking operations with deadlines: Consume on a session, Flush on a
producer. -/

/-- Modelled from the spec: the state Consume operates on.  The delivery
slot holds the pending message together with its arrival time; dead records
whether the internal pump loop has terminated on an unrecoverable error. -/
structure Session where
  slot : Option (String × Nat)
  dead : Bool
  consumed : List String
deriving DecidableEq, Repr

/-- Modelled from the spec: Consume(timeout).  Returns SessionDead when the
internal loop has terminated; otherwise blocks until the delivery slot
fills or the deadline elapses: a message that arrives by the deadline is
dequeued and returned, and on expiry Consume returns Timeout leaving the
session untouched. -/
def Session.consume (s : Session) (deadline : Nat) :
    Except Err String × Session :=
  if s.dead then (.error .sessionDead, s)
  else
    match s.slot with
    | some (m, t) =>
      if t ≤ deadline then (.ok m, ⟨none, s.dead, s.consumed ++ [m]⟩)
      else (.error .timeout, s)
    | none => (.error .timeout, s)

/-- Claim C6: a blocking operation (Consume, Flush) whose deadline expires
before completion returns a Timeout error and leaves all state unchanged,
and for Consume the Timeout is recoverable: a retry with a deadline the
pending message meets succeeds and returns it. -/
theorem timeout_no_side_effects :
    (∀ (s : Session) (dl : Nat),
      (s.consume dl).1 = .error .timeout → (s.consume dl).2 = s) ∧
    (∀ (p : Producer) (dl : Nat),
      (p.flush dl).1 = .error .timeout → (p.flush dl).2 = p) ∧
    (∀ (s : Session) (dl dl' : Nat) (m : String) (t : Nat),
      s.slot = some (m, t) → (s.consume dl).1 = .error .timeout →
      t ≤ dl' → (s.consume dl').1 = .ok m) := by
  refine ⟨?_, ?_, ?_⟩
  · intro s dl h
    by_cases hd : s.dead
    · rw [Session.consume, if_pos hd] at h
      exact absurd h (by simp)
    · rw [Session.consume, if_neg hd]
      cases hs : s.slot with
      | none => rfl
      | some p =>
        obtain ⟨m, t⟩ := p
        by_cases ht : t ≤ dl
        · rw [Session.consume, if_neg hd, hs] at h
          simp [ht] at h
        · simp [ht]
  · intro p dl h
    by_cases hc : p.pending.all (fun d => decide (d.completeAt ≤ dl))
    · rw [Producer.flush, if_pos hc] at h
      cases hf : firstFailure p.pending with
      | none => rw [hf] at h; exact absurd h (by simp)
      | some e => rw [hf] at h; exact absurd h (by simp)
    · rw [Producer.flush, if_neg hc]
  · intro s dl dl' m t hs h ht
    by_cases hd : s.dead
    · rw [Session.consume, if_pos hd] at h
      exact absurd h (by simp)
    · rw [Session.consume, if_neg hd, hs]
      simp [ht]

/-- Witness for timeout_no_side_effects: a live session whose pending
message arrives at time 5; Consume with deadline 3 times out and leaves
the session unchanged, and a retry with deadline 5 returns the message. -/
theorem timeout_no_side_effects_witness :
    ((Session.mk (some ("m", 5)) false []).consume 3).2
        = Session.mk (some ("m", 5)) false [] ∧
    ((Session.mk (some ("m", 5)) false []).consume 5).1 = .ok "m" :=
  ⟨timeout_no_side_effects.1 (Session.mk (some ("m", 5)) false []) 3 rfl,
   timeout_no_side_effects.2.2 (Session.mk (some ("m", 5)) false []) 3 5 "m" 5
     rfl rfl (by decide)⟩

/-! Session close and identity reclaim. -/

/-- The Manager registry together with the external log it commits to. -/
structure World where
  mgr : Manager
  log : Log

/-- Modelled from the spec: closing the session holding a Group Identity.
The session commits its position as the group's committed offset for its
topic, is removed from the registry, and the identity becomes reclaimable;
closing an unknown identity is a no-op. -/
def World.close (w : World) (g : GroupID) : World :=
  match w.mgr.registry.find? (fun p => decide (p.1 = g)) with
  | none => w
  | some (_, s) =>
    { mgr := w.mgr.unregister g
    , log := ⟨fun gr t =>
        if gr = g.group ∧ t = s.topic then s.position
        else w.log.committed gr t⟩ }

theorem unregister_inactive (m : Manager) (g : GroupID) :
    (m.unregister g).isActive g = false := by
  rw [isActive_false_iff]
  intro p hp
  have := (List.mem_filter.mp hp).2
  simpa using this

/-- Claim C5: after the Consumer Session holding (group, id) closes, the
identity becomes reclaimable: a subsequent Register with the same (group,
id) succeeds, and the new session resumes from the offset the closing
session committed for that group. -/
theorem identity_reclaim (w : World) (g : GroupID) (s : ConsumerSession)
    (hfind : w.mgr.registry.find? (fun p => decide (p.1 = g)) = some (g, s)) :
    ((w.close g).mgr.isActive g = false) ∧
    ((w.close g).mgr.register (w.close g).log g s.topic).1
      = .ok ⟨g, s.topic, s.position⟩ := by
  have hw : w.close g =
      { mgr := w.mgr.unregister g
      , log := ⟨fun gr t =>
          if gr = g.group ∧ t = s.topic then s.position
          else w.log.committed gr t⟩ } := by
    rw [World.close, hfind]
  rw [hw]
  refine ⟨unregister_inactive w.mgr g, ?_⟩
  rw [Manager.register]
  rw [if_neg (by rw [unregister_inactive w.mgr g]; simp)]
  simp

/-- Witness for identity_reclaim at a concrete world: one registered
session at position 7; after close, Register with the same identity
succeeds and the new session starts at position 7. -/
theorem identity_reclaim_witness :
    ((World.mk (Manager.mk [(⟨"gr", "id1"⟩, ⟨⟨"gr", "id1"⟩, "a-topic", 7⟩)])
        ⟨fun _ _ => 0⟩).close ⟨"gr", "id1"⟩).mgr.isActive ⟨"gr", "id1"⟩ = false ∧
    (((World.mk (Manager.mk [(⟨"gr", "id1"⟩, ⟨⟨"gr", "id1"⟩, "a-topic", 7⟩)])
        ⟨fun _ _ => 0⟩).close ⟨"gr", "id1"⟩).mgr.register
      ((World.mk (Manager.mk [(⟨"gr", "id1"⟩, ⟨⟨"gr", "id1"⟩, "a-topic", 7⟩)])
        ⟨fun _ _ => 0⟩).close ⟨"gr", "id1"⟩).log ⟨"gr", "id1"⟩ "a-topic").1
      = .ok ⟨⟨"gr", "id1"⟩, "a-topic", 7⟩ :=
  identity_reclaim
    (World.mk (Manager.mk [(⟨"gr", "id1"⟩, ⟨⟨"gr", "id1"⟩, "a-topic", 7⟩)])
      ⟨fun _ _ => 0⟩)
    ⟨"gr", "id1"⟩ ⟨⟨"gr", "id1"⟩, "a-topic", 7⟩ (by decide)

/-! Manager shutdown. -/

/-- Result of a Manager shutdown: which sessions were signalled, how long
shutdown blocked, which sessions never confirmed within the grace timeout
and were torn down forcibly, and the registry afterwards. -/
structure ShutdownResult where
  signalled : List GroupID
  waited : Nat
  forced : List GroupID
  registryAfter : List (GroupID × ConsumerSession)
deriving Repr

/-- Modelled from the spec: Manager shutdown (the manager implementation
file is absent from the source tree; rafka.go only cancels the manager
context and waits on its wait group).  Shutdown sends the cancellation
signal to every registered session; each session g confirms termination at
time confirmAt g.  Shutdown blocks until all sessions confirm, waiting at
most the grace timeout, after which the remaining sessions are torn down
forcibly; in every case the registry is emptied. -/
def Manager.shutdown (m : Manager) (grace : Nat) (confirmAt : GroupID → Nat) :
    ShutdownResult :=
  let keys := m.registry.map Prod.fst
  let unconfirmed := keys.filter fun g => decide (grace < confirmAt g)
  { signalled := keys
  , waited :=
      if unconfirmed.isEmpty then (keys.map confirmAt).foldr max 0 else grace
  , forced := unconfirmed
  , registryAfter := [] }

theorem foldr_max_le (l : List Nat) (b : Nat) (h : ∀ x ∈ l, x ≤ b) :
    l.foldr max 0 ≤ b := by
  induction l with
  | nil => simp
  | cons x rest ih =>
    simp only [List.foldr_cons, max_le_iff]
    exact ⟨h x (by simp), ih fun y hy => h y (by simp [hy])⟩

/-- Claim C7: Manager shutdown sends a cancellation signal to every
registered session and blocks until all sessions confirm termination,
waiting at most the grace timeout: when every session confirms within the
grace period nothing is forced and shutdown blocks exactly until the last
confirmation; otherwise it waits the full grace timeout and the
unconfirmed sessions are torn down forcibly; in all cases the wait is
bounded by the grace timeout and teardown completes with an empty
registry. -/
theorem shutdown_cascades (m : Manager) (grace : Nat)
    (confirmAt : GroupID → Nat) :
    (m.shutdown grace confirmAt).signalled = m.registry.map Prod.fst ∧
    (m.shutdown grace confirmAt).waited ≤ grace ∧
    (m.shutdown grace confirmAt).registryAfter = [] ∧
    ((∀ g ∈ m.registry.map Prod.fst, confirmAt g ≤ grace) →
      (m.shutdown grace confirmAt).forced = [] ∧
      (m.shutdown grace confirmAt).waited
        = ((m.registry.map Prod.fst).map confirmAt).foldr max 0) ∧
    ((∃ g ∈ m.registry.map Prod.fst, grace < confirmAt g) →
      (m.shutdown grace confirmAt).waited = grace ∧
      (m.shutdown grace confirmAt).forced ≠ []) := by
  refine ⟨rfl, ?_, rfl, ?_, ?_⟩
  · rw [Manager.shutdown]
    by_cases hemp :
        ((m.registry.map Prod.fst).filter
          fun g => decide (grace < confirmAt g)).isEmpty
    · simp only [hemp, if_true]
      refine foldr_max_le _ _ ?_
      intro x hx
      obtain ⟨g, hg, hgx⟩ := List.mem_map.mp hx
      subst hgx
      by_contra hlt
      have hmem : g ∈ (m.registry.map Prod.fst).filter
          fun g => decide (grace < confirmAt g) :=
        List.mem_filter.mpr ⟨hg, by simpa using Nat.lt_of_not_le hlt⟩
      rw [List.isEmpty_iff] at hemp
      simp [hemp] at hmem
    · simp [hemp]
  · intro hall
    have hemp : ((m.registry.map Prod.fst).filter
        fun g => decide (grace < confirmAt g)) = [] := by
      rw [List.filter_eq_nil_iff]
      intro g hg
      simpa using Nat.not_lt_of_le (hall g hg)
    constructor
    · simpa [Manager.shutdown] using hemp
    · rw [Manager.shutdown]
      simp [hemp]
  · intro ⟨g, hg, hlt⟩
    have hmem : g ∈ (m.registry.map Prod.fst).filter
        fun g => decide (grace < confirmAt g) :=
      List.mem_filter.mpr ⟨hg, by simpa using hlt⟩
    have hemp : ¬ ((m.registry.map Prod.fst).filter
        fun g => decide (grace < confirmAt g)).isEmpty := by
      rw [List.isEmpty_iff]
      intro h0
      simp [h0] at hmem
    constructor
    · rw [Manager.shutdown]
      simp [hemp]
    · rw [Manager.shutdown]
      intro h0
      have hfil : ((m.registry.map Prod.fst).filter
          fun g => decide (grace < confirmAt g)) = [] := h0
      rw [hfil] at hmem
      exact absurd hmem (List.not_mem_nil g)

/-- Witness for shutdown_cascades: two registered sessions, one confirming
within the grace timeout and one after it; shutdown signals both, waits the
full grace period, forces the late one and empties the registry. -/
theorem shutdown_cascades_witness :
    ((Manager.mk [(⟨"gr", "id1"⟩, ⟨⟨"gr", "id1"⟩, "t", 0⟩),
        (⟨"gr", "id2"⟩, ⟨⟨"gr", "id2"⟩, "t", 0⟩)]).shutdown 10
        (fun g => if g.id = "id2" then 99 else 4)).waited = 10 ∧
    ((Manager.mk [(⟨"gr", "id1"⟩, ⟨⟨"gr", "id1"⟩, "t", 0⟩),
        (⟨"gr", "id2"⟩, ⟨⟨"gr", "id2"⟩, "t", 0⟩)]).shutdown 10
        (fun g => if g.id = "id2" then 99 else 4)).forced ≠ [] :=
  (shutdown_cascades
    (Manager.mk [(⟨"gr", "id1"⟩, ⟨⟨"gr", "id1"⟩, "t", 0⟩),
      (⟨"gr", "id2"⟩, ⟨⟨"gr", "id2"⟩, "t", 0⟩)]) 10
    (fun g => if g.id = "id2" then 99 else 4)).2.2.2.2
    ⟨⟨"gr", "id2"⟩, by decide, by decide⟩

/-! Embedding of rafka.go: process startup and the run function. -/

/-- The kafka.ConfigMap decoded from the librdkafka configuration file in
rafka.go, modelled as its key-value entries. -/
structure KafkaConfig where
  entries : List (String × String)
deriving DecidableEq, Repr

/-- Errors the Before hook of main in rafka.go can return: the
cli.NewExitError for a missing kafka flag, the os.Open error, or the JSON
decode error. -/
inductive BeforeErr where
  | exitError (msg : String) (code : Nat)
  | osError (e : String)
  | decodeError (e : String)
deriving DecidableEq, Repr

/-- The inputs main in rafka.go starts from: the value of the kafka CLI
flag, the filesystem (os.Open as path to contents or error), and the JSON
decoder. -/
structure MainEnv where
  kafkaFlag : String
  openFile : String → Except String String
  decodeJSON : String → Except String KafkaConfig

/-- Embedding of app.Before in main (rafka.go): an empty kafka flag yields
cli.NewExitError with message and exit code 1; then the configuration
file is opened and decoded as JSON, each failure returned as the hook's
error; on success the decoded configuration is stored. -/
def before (env : MainEnv) : Except BeforeErr KafkaConfig :=
  if env.kafkaFlag = "" then .error (.exitError "No kafka configuration!" 1)
  else
    match env.openFile env.kafkaFlag with
    | .error e => .error (.osError e)
    | .ok contents =>
      match env.decodeJSON contents with
      | .error e => .error (.decodeError e)
      | .ok cfg => .ok cfg

/-- Outcome of app.Run in main (rafka.go): either the Before hook failed,
in which case the cli framework reports the error and app.Action (which
calls run, spawning the Manager and the Redis server) never executes, or
Before succeeded and the action ran with the decoded configuration. -/
inductive AppOutcome where
  | beforeFailed (e : BeforeErr)
  | ranAction (cfg : KafkaConfig)
deriving DecidableEq, Repr

/-- Embedding of app.Run in main (rafka.go): the action runs exactly when
the Before hook succeeds. -/
def appRun (env : MainEnv) : AppOutcome :=
  match before env with
  | .error e => .beforeFailed e
  | .ok cfg => .ranAction cfg

/-- Claim C9: startup fails before any server or Manager is spawned
whenever the log-client configuration is unusable: an empty kafka flag
exits with the error message and code 1; a file that cannot be opened or
contents that do not decode as JSON make the Before hook return that
error; and in every such case the run action never executes. -/
theorem startup_fails_before_spawn (env : MainEnv) :
    (env.kafkaFlag = "" →
      appRun env = .beforeFailed (.exitError "No kafka configuration!" 1)) ∧
    (∀ e, env.kafkaFlag ≠ "" → env.openFile env.kafkaFlag = .error e →
      appRun env = .beforeFailed (.osError e)) ∧
    (∀ c e, env.kafkaFlag ≠ "" → env.openFile env.kafkaFlag = .ok c →
      env.decodeJSON c = .error e →
      appRun env = .beforeFailed (.decodeError e)) ∧
    (∀ e cfg, appRun env = .beforeFailed e → appRun env ≠ .ranAction cfg) := by
  refine ⟨?_, ?_, ?_, ?_⟩
  · intro h
    simp [appRun, before, h]
  · intro e hflag hopen
    simp [appRun, before, hflag, hopen]
  · intro c e hflag hopen hdec
    simp [appRun, before, hflag, hopen, hdec]
  · intro e cfg h
    rw [h]
    simp

/-- Witness for startup_fails_before_spawn: an environment with an empty
kafka flag; the app reports the exit error and the action never runs. -/
theorem startup_fails_before_spawn_witness :
    appRun ⟨"", fun _ => .error "x", fun _ => .error "y"⟩
        = .beforeFailed (.exitError "No kafka configuration!" 1) ∧
    appRun ⟨"", fun _ => .error "x", fun _ => .error "y"⟩
        ≠ .ranAction ⟨[]⟩ :=
  ⟨(startup_fails_before_spawn ⟨"", fun _ => .error "x", fun _ => .error "y"⟩).1
      rfl,
   (startup_fails_before_spawn ⟨"", fun _ => .error "x", fun _ => .error "y"⟩).2.2.2
      (.exitError "No kafka configuration!" 1) ⟨[]⟩
      ((startup_fails_before_spawn ⟨"", fun _ => .error "x", fun _ => .error "y"⟩).1
        rfl)⟩

/-- Everything run in rafka.go receives: the cli flag values and the
process environment. -/
structure RunConfig where
  consumerFlag : String
  kafkaFlag : String
  env : String → Option String
  kafkaCfg : KafkaConfig

/-- Embedding of the listen call in run (rafka.go): the address passed to
redisServer.ListenAndServe is the string literal ":6380", whatever the
flags, environment and configuration hold. -/
def listenAddr (_c : RunConfig) : String := ":6380"

/-- Claim C8 counterexample: the listen address is not consumed from the
environment or configuration — no two run configurations give the server
different listen addresses, so the address cannot depend on anything
supplied at startup. -/
theorem listen_addr_not_from_config :
    ¬ ∃ c₁ c₂ : RunConfig, listenAddr c₁ ≠ listenAddr c₂ := by
  rintro ⟨c₁, c₂, h⟩
  exact h rfl

/-- Claim C8 amended: the listen address is the hard-coded constant ":6380"
for every run configuration; it is fixed at startup and read-only for the
process lifetime, but it is not consumed from environment or
configuration. -/
theorem listen_addr_constant (c : RunConfig) : listenAddr c = ":6380" := rfl

/-- Outcome of the Redis-server goroutine in run (rafka.go). -/
inductive GoroutineOutcome where
  | returned
  | panicked (e : String)
deriving DecidableEq, Repr

/-- Embedding of the serving goroutine body in run (rafka.go): it calls
redisServer.ListenAndServe and panics on a non-nil error, otherwise
returns normally.  listenResult is the error value ListenAndServe
returned, none standing for nil. -/
def serveGoroutine (listenResult : Option String) : GoroutineOutcome :=
  match listenResult with
  | some e => .panicked e
  | none => .returned

/-- Claim C10: if ListenAndServe returns a non-nil error, the serving
goroutine panics with that error and does not return normally; only a nil
error lets it return. -/
theorem listen_error_panics (e : String) :
    serveGoroutine (some e) = .panicked e ∧
    serveGoroutine (some e) ≠ .returned ∧
    serveGoroutine none = .returned := by
  refine ⟨rfl, ?_, rfl⟩
  simp [serveGoroutine]

end Rafka
